import Mathlib

/-!
Shallow embedding of `bt_cycle.py`, the 80-minute cycle win-rate report
generator: tabular loader metadata extraction, column resolver, trade
normalizer, cycle aggregator and report renderer, together with proofs of
the specified properties.

Machine reals (Python floats) are modelled as exact rationals; Python
`round` is modelled as round-half-to-even on rationals.  Timestamps are
modelled as already-parsed structured date-times (`pd.to_datetime` succeeds
exactly on cells holding a timestamp).  Python `//` on integers is floor
division, modelled by `Int.fdiv`.
-/

/-! ## Basic string and numeric utilities -/

/-- Substring test on character lists: does `needle` occur inside `hay`?
Models the Python `in` operator on strings. -/
def charListContains (hay needle : List Char) : Bool :=
  match hay with
  | [] => needle.isEmpty
  | _ :: t => needle.isPrefixOf hay || charListContains t needle

/-- Python `str.lower` (ASCII, as in every header matched here). -/
def strLower (s : String) : String :=
  String.mk (s.data.map Char.toLower)

/-- Python `needle in s.lower()` for an already-lowercase `needle`. -/
def containsLower (needle s : String) : Bool :=
  charListContains (strLower s).data needle.data

/-- Round a rational to the nearest integer, halves to even: the semantics
of Python `round` (on exactly representable values). -/
def halfEvenRound (q : ℚ) : ℤ :=
  let f : ℤ := ⌊q⌋
  let r : ℚ := q - f
  if r < 1/2 then f
  else if 1/2 < r then f + 1
  else if f % 2 = 0 then f else f + 1

/-- Python `round(q, dp)`: round to `dp` decimal places, halves to even. -/
def roundQ (dp : ℕ) (q : ℚ) : ℚ :=
  (halfEvenRound (q * (10 : ℚ) ^ dp) : ℚ) / (10 : ℚ) ^ dp

/-! ## Data model

A cell of the loaded table is a string, a number, a parsed timestamp or a
missing value (pandas `NaN`).  A table row is a lookup from column name to
cell, and a table is a column-name list (header) plus the rows. -/

/-- Timestamp as produced by `pd.to_datetime`. -/
structure Timestamp where
  year : ℕ
  month : ℕ
  day : ℕ
  hour : ℕ
  minute : ℕ
deriving DecidableEq, Repr

/-- Calendar date, as extracted by `.dt.date`. -/
structure Date where
  year : ℕ
  month : ℕ
  day : ℕ
deriving DecidableEq, Repr

/-- Python `date` comparison is lexicographic on (year, month, day). -/
def Date.leb (a b : Date) : Bool :=
  if a.year ≠ b.year then a.year < b.year
  else if a.month ≠ b.month then a.month < b.month
  else a.day ≤ b.day

/-- One cell of the loaded table. -/
inductive Cell where
  | str (s : String)
  | num (q : ℚ)
  | time (t : Timestamp)
  | empty
deriving DecidableEq, Repr

/-- A loaded table: ordered column names plus rows (a row maps a column
name to the cell stored under it). -/
structure Table where
  header : List String
  rows : List (String → Cell)

/-- Errors raised by the pipeline (each `raise ValueError(...)` site of the
source, plus the `IndexError` of `.iloc[0]` on an empty frame). -/
inductive Err where
  | missingColumn (which : String)
  | dataFormat
  | emptyDataset
  | indexError
deriving DecidableEq, Repr

/-! ## Tabular loader: strategy metadata extraction

Models the `props` loop of `load_data`: scan sheet names in order for the
first containing "propert" (lowercased); read it; if its columns contain
the exact names "name" and "value" build the mapping by zipping the two
columns, else leave it empty; `break` either way. -/

/-- Metadata extraction from the list of (sheet name, sheet table) pairs. -/
def extractProps : List (String × Table) → List (Cell × Cell)
  | [] => []
  | (nm, t) :: rest =>
    if containsLower "propert" nm then
      if t.header.contains "name" && t.header.contains "value" then
        List.zip (t.rows.map (fun r => r "name")) (t.rows.map (fun r => r "value"))
      else []
    else extractProps rest

/-! ## Column resolver (first stage of `process_trades`) -/

/-- First column whose lowercased name contains "date" or "time". -/
def findDatetimeCol (cols : List String) : Option String :=
  cols.find? (fun c => containsLower "date" c || containsLower "time" c)

/-- First column whose lowercased name is exactly "type". -/
def findTypeCol (cols : List String) : Option String :=
  cols.find? (fun c => strLower c == "type")

/-- Pass 1 of the P&L column search: the source loop `break`s only inside
the inner `if`, so a column matching the outer test but not the inner one
does not stop the scan. -/
def findPnlPass1 : List String → Option String
  | [] => none
  | c :: rest =>
    if containsLower "p&l" c || containsLower "pnl" c || containsLower "profit" c then
      if containsLower "usd" c || containsLower "net" c then some c
      else findPnlPass1 rest
    else findPnlPass1 rest

/-- Pass 2 of the P&L column search (run only when pass 1 found nothing). -/
def findPnlPass2 : List String → Option String
  | [] => none
  | c :: rest =>
    if containsLower "p&l" c || containsLower "pnl" c then some c
    else findPnlPass2 rest

/-- The resolved P&L column. -/
def findPnlCol (cols : List String) : Option String :=
  match findPnlPass1 cols with
  | some c => some c
  | none => findPnlPass2 cols

/-! ## Trade normalizer (`process_trades`) -/

/-- Session and cycle constants of the source. -/
def SESSION_START_HOUR : ℤ := 7

/-- Cycle duration in minutes. -/
def CYCLE_DURATION : ℤ := 80

/-- A row together with its parsed timestamp. -/
structure RowTs where
  row : String → Cell
  ts : Timestamp

/-- Parsing of one timestamp cell by `pd.to_datetime`: succeeds exactly on
cells already holding a timestamp. -/
def parseTs (c : Cell) : Except Err Timestamp :=
  match c with
  | .time t => .ok t
  | _ => .error .dataFormat

/-- Effectful map over a list in the `Except` monad (explicit recursion so
proofs can proceed by structural induction). -/
def mapME (f : α → Except Err β) : List α → Except Err (List β)
  | [] => .ok []
  | a :: l =>
    match f a with
    | .error e => .error e
    | .ok b =>
      match mapME f l with
      | .error e => .error e
      | .ok bs => .ok (b :: bs)

/-- Parse the timestamp column of every row (the source converts the whole
column before any filtering, so every row must parse). -/
def parseTimes (dc : String) (rows : List (String → Cell)) : Except Err (List RowTs) :=
  mapME (fun r => (parseTs (r dc)).map (fun t => ⟨r, t⟩)) rows

/-- Entry filter: with a type column, keep rows whose type value is a
string containing "entry" (case-insensitive); a missing or non-string
value is `NaN` under `.str.contains`, excluded by `na=False`.  Without a
type column every row is kept. -/
def entryFilter (tc? : Option String) (rows : List RowTs) : List RowTs :=
  match tc? with
  | some tc =>
    rows.filter (fun r =>
      match r.row tc with
      | .str s => containsLower "entry" s
      | _ => false)
  | none => rows

/-- A row with the derived per-trade time fields. -/
structure PreTrade where
  row : String → Cell
  ts : Timestamp
  hour : ℕ
  minute : ℕ
  date : Date
  total_mins : ℤ
  cycle_num : ℤ

/-- Minutes since session start, then floor division by the cycle length
(Python `//`). -/
def cycleIndex (h m : ℕ) : ℤ :=
  (((h : ℤ) - SESSION_START_HOUR) * 60 + (m : ℤ)).fdiv CYCLE_DURATION

/-- Derive the time fields of one row. -/
def withCycle (r : RowTs) : PreTrade :=
  { row := r.row
    ts := r.ts
    hour := r.ts.hour
    minute := r.ts.minute
    date := ⟨r.ts.year, r.ts.month, r.ts.day⟩
    total_mins := ((r.ts.hour : ℤ) - SESSION_START_HOUR) * 60 + (r.ts.minute : ℤ)
    cycle_num := cycleIndex r.ts.hour r.ts.minute }

/-- The cycle-range filter `(cycle_num >= 0) & (cycle_num <= 6)`. -/
def inCycleRange (p : PreTrade) : Bool :=
  0 ≤ p.cycle_num && p.cycle_num ≤ 6

/-- Python `str(x)` for a cell, as used by the side-classification lambda.
Only its lowercased "long"-containment is ever inspected; numbers, missing
values (`str(nan) = "nan"`) and timestamps never contain "long". -/
def cellDisplayStr (c : Cell) : String :=
  match c with
  | .str s => s
  | .num q => toString q.num ++ (if q.den = 1 then "" else "/" ++ toString q.den)
  | .time _ => "Timestamp"
  | .empty => "nan"

/-- One normalized trade: the columns the source adds to `entries`. -/
structure NormalizedTrade where
  ts : Timestamp
  hour : ℕ
  minute : ℕ
  date : Date
  total_mins : ℤ
  cycle_num : ℤ
  is_win : Bool
  pnl : ℚ
  trade_type : String
deriving DecidableEq, Repr

/-- Final per-trade fields: win flag (`pnl > 0`), signed P&L and side
(binary fallback: anything whose string form does not contain "long" is
"Short"; "Unknown" only when no type column exists).  A non-numeric P&L
cell would make the pandas comparison `entries[pnl_col] > 0` raise. -/
def finishTrade (pc : String) (tc? : Option String) (p : PreTrade) :
    Except Err NormalizedTrade :=
  match p.row pc with
  | .num q =>
    .ok { ts := p.ts
          hour := p.hour
          minute := p.minute
          date := p.date
          total_mins := p.total_mins
          cycle_num := p.cycle_num
          is_win := decide (0 < q)
          pnl := q
          trade_type :=
            match tc? with
            | some tc =>
              if containsLower "long" (cellDisplayStr (p.row tc)) then "Long" else "Short"
            | none => "Unknown" }
  | _ => .error .dataFormat

/-- The trade normalizer `process_trades`, stage by stage in source order:
resolve the timestamp column, the optional type column and the P&L column;
parse timestamps; filter to entry rows; raise on an empty result; derive
cycle indices; drop out-of-range cycles; finish the per-trade fields. -/
def process_trades (tbl : Table) : Except Err (List NormalizedTrade) :=
  match findDatetimeCol tbl.header with
  | none => .error (.missingColumn "timestamp")
  | some dc =>
    let tc? := findTypeCol tbl.header
    match findPnlCol tbl.header with
    | none => .error (.missingColumn "pnl")
    | some pc =>
      match parseTimes dc tbl.rows with
      | .error e => .error e
      | .ok rts =>
        let entries := entryFilter tc? rts
        if entries.isEmpty then .error .emptyDataset
        else
          let pre := entries.map withCycle
          let kept := pre.filter inCycleRange
          mapME (finishTrade pc tc?) kept

/-! ## Cycle aggregator (`calculate_cycle_stats`, `calculate_overall_stats`) -/

/-- The `CYCLE_TIMES` display labels. -/
def CYCLE_TIMES : ℕ → String
  | 0 => "07:00 - 08:20"
  | 1 => "08:20 - 09:40"
  | 2 => "09:40 - 11:00"
  | 3 => "11:00 - 12:20"
  | 4 => "12:20 - 13:40"
  | 5 => "13:40 - 15:00"
  | 6 => "15:00 - 16:20"
  | _ => ""

/-- Sum of the boolean win column (`is_win.sum()`). -/
def winsOf (l : List NormalizedTrade) : ℕ :=
  (l.filter (fun e => e.is_win)).length

/-- Sum of the P&L column. -/
def pnlSum (l : List NormalizedTrade) : ℚ :=
  (l.map (fun e => e.pnl)).sum

/-- One per-cycle statistics record (the row dict built per cycle). -/
structure CycleStat where
  cycle : ℕ
  time_range : String
  total_trades : ℕ
  wins : ℕ
  losses : ℕ
  win_rate : ℚ
  total_pnl : ℚ
  avg_pnl : ℚ
  long_trades : ℕ
  long_wr : ℚ
  long_pnl : ℚ
  short_trades : ℕ
  short_wr : ℚ
  short_pnl : ℚ
deriving DecidableEq, Repr

/-- Build the statistics row for one cycle from its trades. -/
def cycleRow (cycle : ℕ) (cycle_data : List NormalizedTrade) : CycleStat :=
  let long_data := cycle_data.filter (fun e => e.trade_type == "Long")
  let short_data := cycle_data.filter (fun e => e.trade_type == "Short")
  { cycle := cycle
    time_range := CYCLE_TIMES cycle
    total_trades := cycle_data.length
    wins := winsOf cycle_data
    losses := cycle_data.length - winsOf cycle_data
    win_rate := roundQ 1 (((winsOf cycle_data : ℚ) / (cycle_data.length : ℚ)) * 100)
    total_pnl := pnlSum cycle_data
    avg_pnl := roundQ 0 (pnlSum cycle_data / (cycle_data.length : ℚ))
    long_trades := long_data.length
    long_wr :=
      if long_data.length > 0 then
        roundQ 1 (((winsOf long_data : ℚ) / (long_data.length : ℚ)) * 100)
      else 0
    long_pnl := if long_data.length > 0 then pnlSum long_data else 0
    short_trades := short_data.length
    short_wr :=
      if short_data.length > 0 then
        roundQ 1 (((winsOf short_data : ℚ) / (short_data.length : ℚ)) * 100)
      else 0
    short_pnl := if short_data.length > 0 then pnlSum short_data else 0 }

/-- Per-cycle statistics: iterate cycles 0..6 in order, skipping cycles
with no trades (`continue`). -/
def calculate_cycle_stats (entries : List NormalizedTrade) : List CycleStat :=
  (List.range 7).filterMap (fun (cycle : ℕ) =>
    let cycle_data := entries.filter (fun e => e.cycle_num == (cycle : ℤ))
    if cycle_data.isEmpty then none else some (cycleRow cycle cycle_data))

/-- Minimum of a date column (`None` on an empty frame, where pandas
yields `NaN`). -/
def dateMin? : List Date → Option Date
  | [] => none
  | d :: l =>
    match dateMin? l with
    | none => some d
    | some m => some (if Date.leb d m then d else m)

/-- Maximum of a date column. -/
def dateMax? : List Date → Option Date
  | [] => none
  | d :: l =>
    match dateMax? l with
    | none => some d
    | some m => some (if Date.leb m d then d else m)

/-- Overall statistics record. -/
structure OverallStats where
  total_trades : ℕ
  total_wins : ℕ
  total_losses : ℕ
  overall_wr : ℚ
  total_pnl : ℚ
  long_trades : ℕ
  long_wins : ℕ
  long_losses : ℕ
  long_wr : ℚ
  long_pnl : ℚ
  short_trades : ℕ
  short_wins : ℕ
  short_losses : ℕ
  short_wr : ℚ
  short_pnl : ℚ
  start_date : Option Date
  end_date : Option Date
deriving DecidableEq, Repr

/-- Overall statistics over all normalized trades.  Note the two-decimal
rounding of every overall win rate, against one decimal per cycle. -/
def calculate_overall_stats (entries : List NormalizedTrade) : OverallStats :=
  let long_trades := entries.filter (fun e => e.trade_type == "Long")
  let short_trades := entries.filter (fun e => e.trade_type == "Short")
  { total_trades := entries.length
    total_wins := winsOf entries
    total_losses := entries.length - winsOf entries
    overall_wr := roundQ 2 (((winsOf entries : ℚ) / (entries.length : ℚ)) * 100)
    total_pnl := pnlSum entries
    long_trades := long_trades.length
    long_wins := winsOf long_trades
    long_losses := long_trades.length - winsOf long_trades
    long_wr :=
      if long_trades.length > 0 then
        roundQ 2 (((winsOf long_trades : ℚ) / (long_trades.length : ℚ)) * 100)
      else 0
    long_pnl := if long_trades.length > 0 then pnlSum long_trades else 0
    short_trades := short_trades.length
    short_wins := winsOf short_trades
    short_losses := short_trades.length - winsOf short_trades
    short_wr :=
      if short_trades.length > 0 then
        roundQ 2 (((winsOf short_trades : ℚ) / (short_trades.length : ℚ)) * 100)
      else 0
    short_pnl := if short_trades.length > 0 then pnlSum short_trades else 0
    start_date := dateMin? (entries.map (fun e => e.date))
    end_date := dateMax? (entries.map (fun e => e.date)) }

/-! ## Report renderer (`format_pnl`, `format_pnl_signed`, `generate_report`) -/

/-- Insert thousands separators into a reversed digit list. -/
def groupCharsRev : List Char → List Char
  | a :: b :: c :: d :: rest => a :: b :: c :: ',' :: groupCharsRev (d :: rest)
  | l => l

/-- Decimal digits of a natural number with thousands separators. -/
def groupNat (n : ℕ) : String :=
  String.mk ((groupCharsRev (toString n).data.reverse).reverse)

/-- Python `f"{q:,.0f}"`: round to zero decimals, thousands separators,
sign taken from the value. -/
def groupFmt0 (q : ℚ) : String :=
  (if q < 0 then "-" else "") ++ groupNat (halfEvenRound q).natAbs

/-- Format a P&L value (`format_pnl`). -/
def format_pnl (value : ℚ) : String :=
  if value ≥ 0 then "$" ++ groupFmt0 value
  else "-$" ++ groupFmt0 |value|

/-- Format a P&L value with an explicit sign (`format_pnl_signed`). -/
def format_pnl_signed (value : ℚ) : String :=
  if value ≥ 0 then "+$" ++ groupFmt0 value
  else "-$" ++ groupFmt0 |value|

/-- Left-pad a natural number with zeros to the given width. -/
def padZeros (w : ℕ) (n : ℕ) : String :=
  let s := toString n
  String.mk (List.replicate (w - s.length) '0') ++ s

/-- Python fixed-point formatting `f"{q:.dpf}"` on an exact value. -/
def fmtFixed (dp : ℕ) (q : ℚ) : String :=
  let r := (halfEvenRound (q * (10 : ℚ) ^ dp)).natAbs
  let sign := if q < 0 then "-" else ""
  if dp = 0 then sign ++ toString r
  else sign ++ toString (r / 10 ^ dp) ++ "." ++ padZeros dp (r % 10 ^ dp)

/-- Two-digit zero padding (`%d`, `%H`, `%M`). -/
def pad2 (n : ℕ) : String :=
  if n < 10 then "0" ++ toString n else toString n

/-- Four-digit zero padding for years. -/
def pad4 (n : ℕ) : String :=
  if n < 10 then "000" ++ toString n
  else if n < 100 then "00" ++ toString n
  else if n < 1000 then "0" ++ toString n
  else toString n

/-- Python `str(date)`. -/
def dateDisp : Option Date → String
  | some d => pad4 d.year ++ "-" ++ pad2 d.month ++ "-" ++ pad2 d.day
  | none => "nan"

/-- Full month name (`%B`). -/
def monthName : ℕ → String
  | 1 => "January"
  | 2 => "February"
  | 3 => "March"
  | 4 => "April"
  | 5 => "May"
  | 6 => "June"
  | 7 => "July"
  | 8 => "August"
  | 9 => "September"
  | 10 => "October"
  | 11 => "November"
  | 12 => "December"
  | _ => ""

/-- The wall-clock value read by `datetime.now()` inside the renderer. -/
structure Now where
  year : ℕ
  month : ℕ
  day : ℕ
  hour : ℕ
  minute : ℕ
deriving DecidableEq, Repr

/-- The footer timestamp `datetime.now().strftime(<percent>B <percent>d, <percent>Y at <percent>H:<percent>M)`. -/
def fmtNow (t : Now) : String :=
  monthName t.month ++ " " ++ pad2 t.day ++ ", " ++ toString t.year ++ " at "
    ++ pad2 t.hour ++ ":" ++ pad2 t.minute

/-- Python dict `get` with a string default, honouring the source guard
`props.get(k, dflt) if props else dflt` (a `None` or empty dict falls back
to the default).  Duplicate keys in the zip: the last occurrence wins. -/
def propGet (props? : Option (List (Cell × Cell))) (k dflt : String) : Cell :=
  match props? with
  | none => .str dflt
  | some props =>
    if props.isEmpty then .str dflt
    else
      match props.reverse.find? (fun p => decide (p.1 = Cell.str k)) with
      | some p => p.2
      | none => .str dflt

/-- Rendering of the initial-capital cell: strings pass through, numbers
render as `f"${v:,.0f}"`; the loader never produces other scalar kinds
here (pandas would hold `NaN`, printed "nan"). -/
def capitalDisp (c : Cell) : String :=
  match c with
  | .str s => s
  | .num q => "$" ++ groupFmt0 q
  | _ => "$nan"

/-- Pandas `sort_values(key)` (ascending): `nargsort` performs a stable
ascending argsort; for the at-most-seven-row frames sorted here, numpy
quicksort is an insertion sort (stable). -/
def sortAscBy (key : CycleStat → ℚ) (l : List CycleStat) : List CycleStat :=
  List.insertionSort (fun a b => key a ≤ key b) l

/-- Pandas `sort_values(key, ascending=False)`: `nargsort` reverses the
rows, runs the stable ascending argsort, and reverses the result again,
which keeps equal-key rows in their original order. -/
def sort_values_desc (key : CycleStat → ℚ) (l : List CycleStat) : List CycleStat :=
  (List.insertionSort (fun a b => key a ≤ key b) l.reverse).reverse

/-- The "By win rate" ranking. -/
def rankedByWinRate (cs : List CycleStat) : List CycleStat :=
  sort_values_desc (fun s => s.win_rate) cs

/-- The "By profitability" ranking. -/
def rankedByPnl (cs : List CycleStat) : List CycleStat :=
  sort_values_desc (fun s => s.total_pnl) cs

/-- High-win-rate highlight pool: win rate at least 55, descending. -/
def high_wr_cycles (cs : List CycleStat) : List CycleStat :=
  sort_values_desc (fun s => s.win_rate) (cs.filter (fun s => decide (55 ≤ s.win_rate)))

/-- Low-win-rate highlight pool: win rate below 50, ascending. -/
def low_wr_cycles (cs : List CycleStat) : List CycleStat :=
  sortAscBy (fun s => s.win_rate) (cs.filter (fun s => decide (s.win_rate < 50)))

/-- Ranking icon by 1-based rank. -/
def rankIcon : ℕ → String
  | 1 => "[1st]"
  | 2 => "[2nd]"
  | 3 => "[3rd]"
  | r => "[" ++ toString r ++ "]"

/-- Status and action of the recommended-schedule table for one cycle. -/
def classify (s : CycleStat) : String × String :=
  if s.win_rate ≥ 55 then
    ("[GO]",
      if s.long_wr > s.short_wr + 10 then "Favor longs"
      else if s.short_wr > s.long_wr + 10 then "Favor shorts"
      else "Trade both directions")
  else if s.win_rate ≥ 50 then ("[CAUTION]", "Trade with caution")
  else ("[SKIP]", "Do not trade")

/-- One row of the recommended-schedule table. -/
structure ScheduleRow where
  priority : ℕ
  stat : CycleStat
  status : String
  action : String
deriving DecidableEq, Repr

/-- The recommended-schedule rows: cycles in descending win-rate order
with 1-based sequential priorities and the classification of each. -/
def scheduleRows (cs : List CycleStat) : List ScheduleRow :=
  (List.enumFrom 1 (rankedByWinRate cs)).map (fun pr =>
    { priority := pr.1
      stat := pr.2
      status := (classify pr.2).1
      action := (classify pr.2).2 })

/-- One row of the cycle-by-cycle summary table. -/
def cycleTableRow (r : CycleStat) : String :=
  "| " ++ toString r.cycle ++ " | " ++ r.time_range ++ " | " ++ toString r.total_trades
    ++ " | " ++ toString r.wins ++ " | " ++ toString r.losses ++ " | **"
    ++ fmtFixed 1 r.win_rate ++ "%** | " ++ format_pnl r.total_pnl ++ " | "
    ++ format_pnl r.avg_pnl ++ " |\n"

/-- One line of the win-rate ranking list. -/
def wrRankLine (pr : ℕ × CycleStat) : String :=
  "**" ++ rankIcon pr.1 ++ " Cycle " ++ toString pr.2.cycle ++ "** (" ++ pr.2.time_range
    ++ ") - **" ++ fmtFixed 1 pr.2.win_rate ++ "%** win rate | "
    ++ toString pr.2.total_trades ++ " trades | " ++ format_pnl_signed pr.2.total_pnl
    ++ "\n\n"

/-- One line of the profitability ranking list. -/
def pnlRankLine (pr : ℕ × CycleStat) : String :=
  "**" ++ rankIcon pr.1 ++ " Cycle " ++ toString pr.2.cycle ++ "** (" ++ pr.2.time_range
    ++ ") - **" ++ format_pnl_signed pr.2.total_pnl ++ "** | "
    ++ fmtFixed 1 pr.2.win_rate ++ "% WR\n\n"

/-- One row of the long-versus-short table. -/
def lsRow (r : CycleStat) : String :=
  "| " ++ toString r.cycle ++ " | " ++ r.time_range ++ " | " ++ toString r.long_trades
    ++ " | " ++ fmtFixed 1 r.long_wr ++ "% | " ++ format_pnl r.long_pnl ++ " | "
    ++ toString r.short_trades ++ " | " ++ fmtFixed 1 r.short_wr ++ "% | "
    ++ format_pnl r.short_pnl ++ " |\n"

/-- One row of the high-win-rate highlight table. -/
def highRow (r : CycleStat) : String :=
  let long_note :=
    if r.long_trades > 0 then "Longs: " ++ fmtFixed 0 r.long_wr ++ "%" else "No longs"
  let short_note :=
    if r.short_trades > 0 then "Shorts: " ++ fmtFixed 0 r.short_wr ++ "%" else "No shorts"
  "| **" ++ toString r.cycle ++ "** | " ++ r.time_range ++ " | **"
    ++ fmtFixed 1 r.win_rate ++ "%** | " ++ long_note ++ ", " ++ short_note
    ++ ". P&L: " ++ format_pnl_signed r.total_pnl ++ " |\n"

/-- One row of the low-win-rate highlight table. -/
def lowRow (r : CycleStat) : String :=
  "| **" ++ toString r.cycle ++ "** | " ++ r.time_range ++ " | **"
    ++ fmtFixed 1 r.win_rate ++ "%** | P&L: " ++ format_pnl r.total_pnl
    ++ ". Consider skipping this cycle. |\n"

/-- One row of the recommended-schedule table. -/
def scheduleLine (r : ScheduleRow) : String :=
  "| " ++ r.status ++ " " ++ toString r.priority ++ " | " ++ toString r.stat.cycle
    ++ " | " ++ r.stat.time_range ++ " | " ++ fmtFixed 1 r.stat.win_rate ++ "% | "
    ++ r.action ++ " |\n"

/-- Placeholder used under the nonempty guard for `iloc` accesses (never
reaches the output when the cycle list is nonempty). -/
def dummyStat : CycleStat := cycleRow 0 []

/-- Everything of the report before the generation footer; independent of
the clock. -/
def bodyText (cs : List CycleStat) (os : OverallStats)
    (props? : Option (List (Cell × Cell))) : String :=
  let symbol := propGet props? "Symbol" "Unknown"
  let timeframe := propGet props? "Timeframe" "Unknown"
  let stop_loss := propGet props? "Stop Loss (points)" "N/A"
  let take_profit := propGet props? "Take Profit (points)" "N/A"
  let initial_capital := propGet props? "Initial capital" "N/A"
  let ranked := rankedByWinRate cs
  let ranked_pnl := rankedByPnl cs
  let best_wr := ranked.headD dummyStat
  let worst_wr := ranked.getLastD dummyStat
  let best_pnl := ranked_pnl.headD dummyStat
  let worst_pnl := ranked_pnl.getLastD dummyStat
  "# 80-Minute Cycle Strategy - Win Rate Analysis Report\n\n## Strategy Overview\n\n| Parameter | Value |\n|-----------|-------|\n| **Symbol** | "
    ++ cellDisplayStr symbol ++ " |\n| **Timeframe** | " ++ cellDisplayStr timeframe
    ++ " |\n| **Trading Period** | " ++ dateDisp os.start_date ++ " to "
    ++ dateDisp os.end_date
    ++ " |\n| **Session Hours** | 7:00 AM - 4:00 PM EST |\n| **Stop Loss** | "
    ++ cellDisplayStr stop_loss ++ " points |\n| **Take Profit** | "
    ++ cellDisplayStr take_profit ++ " points |\n| **Initial Capital** | "
    ++ capitalDisp initial_capital
    ++ " |\n\n---\n\n## Overall Performance Summary\n\n| Metric | All Trades | Long | Short |\n|--------|------------|------|-------|\n| **Total Trades** | "
    ++ toString os.total_trades ++ " | " ++ toString os.long_trades ++ " | "
    ++ toString os.short_trades ++ " |\n| **Winning Trades** | "
    ++ toString os.total_wins ++ " | " ++ toString os.long_wins ++ " | "
    ++ toString os.short_wins ++ " |\n| **Losing Trades** | "
    ++ toString os.total_losses ++ " | " ++ toString os.long_losses ++ " | "
    ++ toString os.short_losses ++ " |\n| **Win Rate** | "
    ++ fmtFixed 2 os.overall_wr ++ "% | " ++ fmtFixed 2 os.long_wr ++ "% | "
    ++ fmtFixed 2 os.short_wr ++ "% |\n| **Net P&L** | "
    ++ format_pnl os.total_pnl ++ " | " ++ format_pnl os.long_pnl ++ " | "
    ++ format_pnl os.short_pnl
    ++ " |\n\n---\n\n## Cycle-by-Cycle Win Rate Analysis\n\nThe trading session (7:00 AM - 4:00 PM EST) is divided into **seven 80-minute cycles**. Each cycle consists of:\n- **Phase A (Accumulation)**: First 40 minutes - Range established\n- **Phase B (Execution)**: Last 40 minutes - Trade signals generated\n\n### Summary Table\n\n| Cycle | Time (EST) | Trades | Wins | Losses | Win Rate | Total P&L | Avg P&L |\n|:-----:|:----------:|:------:|:----:|:------:|:--------:|----------:|--------:|\n"
    ++ String.join (cs.map cycleTableRow)
    ++ "\n---\n\n## Cycle Rankings\n\n### By Win Rate (Highest to Lowest)\n\n"
    ++ String.join ((List.enumFrom 1 ranked).map wrRankLine)
    ++ "### By Profitability (Best to Worst)\n\n"
    ++ String.join ((List.enumFrom 1 ranked_pnl).map pnlRankLine)
    ++ "---\n\n## Long vs Short Performance by Cycle\n\n| Cycle | Time (EST) | Long Trades | Long WR | Long P&L | Short Trades | Short WR | Short P&L |\n|:-----:|:----------:|:-----------:|:-------:|---------:|:------------:|:--------:|---------:|\n"
    ++ String.join (cs.map lsRow)
    ++ "\n---\n\n## Key Insights & Recommendations\n\n### HIGH-WIN-RATE CYCLES (Recommended)\n\n| Cycle | Time | Win Rate | Insight |\n|:-----:|:----:|:--------:|---------|\n"
    ++ String.join ((high_wr_cycles cs).take 3 |>.map highRow)
    ++ "\n### LOW-WIN-RATE CYCLES (Avoid or Modify)\n\n| Cycle | Time | Win Rate | Issue |\n|:-----:|:----:|:--------:|-------|\n"
    ++ String.join ((low_wr_cycles cs).take 3 |>.map lowRow)
    ++ "\n### Strategic Recommendations\n\n1. **Best Cycle**: Cycle "
    ++ toString best_wr.cycle ++ " (" ++ best_wr.time_range
    ++ ") has the highest win rate at " ++ fmtFixed 1 best_wr.win_rate
    ++ "%.\n\n2. **Worst Cycle**: Cycle " ++ toString worst_wr.cycle ++ " ("
    ++ worst_wr.time_range ++ ") has the lowest win rate at "
    ++ fmtFixed 1 worst_wr.win_rate
    ++ "%. Consider avoiding.\n\n3. **Most Profitable**: Cycle "
    ++ toString best_pnl.cycle ++ " (" ++ best_pnl.time_range ++ ") generated "
    ++ format_pnl_signed best_pnl.total_pnl
    ++ ".\n\n4. **Biggest Loser**: Cycle " ++ toString worst_pnl.cycle ++ " ("
    ++ worst_pnl.time_range ++ ") lost " ++ format_pnl worst_pnl.total_pnl
    ++ ".\n\n5. **Direction Bias**: "
    ++ (if os.long_wr > os.short_wr then "Longs outperform shorts"
        else "Shorts outperform longs")
    ++ " (" ++ fmtFixed 1 os.long_wr ++ "% vs " ++ fmtFixed 1 os.short_wr
    ++ "%).\n\n---\n\n## Recommended Trading Schedule\n\n| Priority | Cycle | Time (EST) | Win Rate | Action |\n|:--------:|:-----:|:----------:|:--------:|--------|\n"
    ++ String.join ((scheduleRows cs).map scheduleLine)

/-- The generation footer, the only clock-dependent part of the report. -/
def footerText (now : Now) : String :=
  "\n---\n\n*Report generated: " ++ fmtNow now
    ++ "*  \n*Data source: TradingView Backtest Export*\n"

/-- The report generator.  With no cycle rows, `ranked.iloc[0]` raises an
`IndexError` before any output is produced; otherwise the full markdown
text is returned. -/
def generate_report (cs : List CycleStat) (os : OverallStats)
    (props? : Option (List (Cell × Cell))) (now : Now) : Except Err String :=
  if cs.isEmpty then .error .indexError
  else .ok (bodyText cs os props? ++ footerText now)

/-! ## Helper lemmas -/

/-- Left cancellation of string concatenation. -/
theorem string_append_left_cancel {a b c : String} (h : a ++ b = a ++ c) : b = c := by
  apply String.ext
  have hd : a.data ++ b.data = a.data ++ c.data := congrArg String.data h
  simpa using hd

/-- Right cancellation of string concatenation. -/
theorem string_append_right_cancel {a b c : String} (h : a ++ c = b ++ c) : a = b := by
  apply String.ext
  have hd : a.data ++ c.data = b.data ++ c.data := congrArg String.data h
  simpa using hd

/-- Every element of a successful `mapME` run is the image of a list
element. -/
theorem mapME_ok_mem {f : α → Except Err β} :
    ∀ {l : List α} {res : List β}, mapME f l = .ok res →
      ∀ b ∈ res, ∃ a ∈ l, f a = .ok b := by
  intro l
  induction l with
  | nil =>
    intro res h b hb
    simp only [mapME] at h
    cases h
    simp at hb
  | cons a l ih =>
    intro res h b hb
    simp only [mapME] at h
    cases hfa : f a with
    | error e => rw [hfa] at h; cases h
    | ok b0 =>
      rw [hfa] at h
      cases hrec : mapME f l with
      | error e => rw [hrec] at h; cases h
      | ok bs =>
        rw [hrec] at h
        cases h
        rcases List.mem_cons.mp hb with hb0 | hbs
        · exact ⟨a, List.mem_cons_self a l, hb0 ▸ hfa⟩
        · obtain ⟨a1, ha1, hfa1⟩ := ih hrec b hbs
          exact ⟨a1, List.mem_cons_of_mem a ha1, hfa1⟩

/-- A failed `mapME` run fails at some list element. -/
theorem mapME_error_mem {f : α → Except Err β} :
    ∀ {l : List α} {e : Err}, mapME f l = .error e → ∃ a ∈ l, f a = .error e := by
  intro l
  induction l with
  | nil => intro e h; simp only [mapME] at h; cases h
  | cons a l ih =>
    intro e h
    simp only [mapME] at h
    cases hfa : f a with
    | error e0 =>
      rw [hfa] at h
      cases h
      exact ⟨a, List.mem_cons_self a l, hfa⟩
    | ok b0 =>
      rw [hfa] at h
      cases hrec : mapME f l with
      | error e0 =>
        rw [hrec] at h
        cases h
        obtain ⟨a1, ha1, hfa1⟩ := ih hrec
        exact ⟨a1, List.mem_cons_of_mem a ha1, hfa1⟩
      | ok bs => rw [hrec] at h; cases h

/-- The only error a timestamp parse can raise. -/
theorem parseTs_error {c : Cell} {e : Err} (h : parseTs c = .error e) : e = .dataFormat := by
  cases c <;> simp [parseTs] at h <;> exact h.symm

/-- The only error `finishTrade` can raise. -/
theorem finishTrade_error {pc : String} {tc? : Option String} {p : PreTrade} {e : Err}
    (h : finishTrade pc tc? p = .error e) : e = .dataFormat := by
  unfold finishTrade at h
  cases hc : p.row pc <;> rw [hc] at h <;> simp at h <;> exact h.symm

/-- The only error `parseTimes` can raise. -/
theorem parseTimes_error {dc : String} {rows : List (String → Cell)} {e : Err}
    (h : parseTimes dc rows = .error e) : e = .dataFormat := by
  obtain ⟨r, _, hr⟩ := mapME_error_mem h
  cases hp : parseTs (r dc) with
  | error e0 =>
    rw [hp] at hr
    simp [Except.map] at hr
    exact hr ▸ parseTs_error hp
  | ok t => rw [hp] at hr; simp [Except.map] at hr

/-- Filtering on one key value commutes with an ordered insert for that
key: the insert is placed before every equal-key element already present,
so equal keys keep their (reverse-processing) order. -/
theorem filter_orderedInsert (key : CycleStat → ℚ) (k : ℚ) (a : CycleStat) :
    ∀ l : List CycleStat,
      (List.orderedInsert (fun x y => key x ≤ key y) a l).filter (fun s => decide (key s = k))
        = if key a = k then a :: l.filter (fun s => decide (key s = k))
          else l.filter (fun s => decide (key s = k)) := by
  intro l
  induction l with
  | nil => by_cases hak : key a = k <;> simp [List.orderedInsert, hak]
  | cons b l ih =>
    by_cases hle : key a ≤ key b
    · simp only [List.orderedInsert, if_pos hle, List.filter_cons]
      split <;> simp_all
    · simp only [List.orderedInsert, if_neg hle, List.filter_cons]
      have hb : key b < key a := lt_of_not_le hle
      by_cases hak : key a = k
      · have hbk : ¬ (key b = k) := by
          intro hbk
          rw [hak] at hb
          rw [hbk] at hb
          exact lt_irrefl k hb
        simp [hak, hbk, ih, List.filter_cons]
      · by_cases hbk : key b = k <;> simp [hak, hbk, ih, List.filter_cons]

/-- Filtering on one key value is invariant under the stable insertion
sort: among elements of equal key, the sorted list keeps the original
order. -/
theorem filter_insertionSort (key : CycleStat → ℚ) (k : ℚ) :
    ∀ l : List CycleStat,
      (List.insertionSort (fun x y => key x ≤ key y) l).filter (fun s => decide (key s = k))
        = l.filter (fun s => decide (key s = k)) := by
  intro l
  induction l with
  | nil => rfl
  | cons a l ih =>
    simp only [List.insertionSort, filter_orderedInsert, ih, List.filter_cons]
    split <;> simp_all

/-- A pandas descending sort is a permutation of its input. -/
theorem sort_values_desc_perm (key : CycleStat → ℚ) (l : List CycleStat) :
    (sort_values_desc key l).Perm l := by
  unfold sort_values_desc
  exact ((List.reverse_perm _).trans (List.perm_insertionSort _ _)).trans (List.reverse_perm l)

/-- A pandas descending sort is sorted in weakly decreasing key order. -/
theorem sort_values_desc_pairwise (key : CycleStat → ℚ) (l : List CycleStat) :
    (sort_values_desc key l).Pairwise (fun a b => key b ≤ key a) := by
  unfold sort_values_desc
  haveI ht : IsTotal CycleStat (fun a b => key a ≤ key b) :=
    ⟨fun a b => le_total (key a) (key b)⟩
  haveI htr : IsTrans CycleStat (fun a b => key a ≤ key b) :=
    ⟨fun _ _ _ hab hbc => le_trans hab hbc⟩
  exact List.pairwise_reverse.mpr (List.sorted_insertionSort _ l.reverse)

/-- The double reversal of pandas `nargsort` preserves the original order
of equal-key elements even in a descending sort. -/
theorem filter_sort_values_desc (key : CycleStat → ℚ) (k : ℚ) (l : List CycleStat) :
    (sort_values_desc key l).filter (fun s => decide (key s = k))
      = l.filter (fun s => decide (key s = k)) := by
  unfold sort_values_desc
  rw [List.filter_reverse, filter_insertionSort, List.filter_reverse, List.reverse_reverse]

/-- Elimination principle for a successful `process_trades` run: names the
resolved columns and every intermediate stage. -/
theorem process_trades_ok {tbl : Table} {entries : List NormalizedTrade}
    (h : process_trades tbl = .ok entries) :
    ∃ dc pc rts,
      findDatetimeCol tbl.header = some dc
      ∧ findPnlCol tbl.header = some pc
      ∧ parseTimes dc tbl.rows = .ok rts
      ∧ (entryFilter (findTypeCol tbl.header) rts).isEmpty = false
      ∧ mapME (finishTrade pc (findTypeCol tbl.header))
          (((entryFilter (findTypeCol tbl.header) rts).map withCycle).filter inCycleRange)
          = .ok entries := by
  unfold process_trades at h
  split at h
  · cases h
  · rename_i dc hdc
    split at h
    · cases h
    · rename_i pc hpc
      split at h
      · cases h
      · rename_i rts hts
        simp only [] at h
        split at h
        · cases h
        · rename_i hemp
          rw [Bool.not_eq_true] at hemp
          exact ⟨dc, pc, rts, hdc, hpc, hts, hemp, h⟩

/-! ## Claim theorems -/

/-- C1: every qualifying entry row gets cycle index
`floor(((hour - 7) * 60 + minute) / 80)` and is kept for aggregation
exactly when that index lies in [0, 6]; a trade at 08:20 falls in cycle 1,
while 06:59 (cycle -1) and 16:20 (cycle 7) are dropped. -/
theorem c1_cycle_indexing (tbl : Table) (dc pc : String) (rts : List RowTs)
    (entries : List NormalizedTrade)
    (hdc : findDatetimeCol tbl.header = some dc)
    (hpc : findPnlCol tbl.header = some pc)
    (hts : parseTimes dc tbl.rows = .ok rts)
    (h : process_trades tbl = .ok entries) :
    (∀ e ∈ entries,
        e.cycle_num = cycleIndex e.hour e.minute
        ∧ 0 ≤ e.cycle_num ∧ e.cycle_num ≤ 6)
    ∧ (∀ p : PreTrade,
        p ∈ ((entryFilter (findTypeCol tbl.header) rts).map withCycle).filter inCycleRange
          ↔ p ∈ (entryFilter (findTypeCol tbl.header) rts).map withCycle
            ∧ (0 ≤ p.cycle_num ∧ p.cycle_num ≤ 6))
    ∧ cycleIndex 8 20 = 1 ∧ cycleIndex 6 59 = -1 ∧ cycleIndex 16 20 = 7 := by
  obtain ⟨dc1, pc1, rts1, hdc1, hpc1, hts1, hemp1, hmap1⟩ := process_trades_ok h
  refine ⟨?_, ?_, by decide, by decide, by decide⟩
  · intro e he
    obtain ⟨p, hp, hfin⟩ := mapME_ok_mem hmap1 e he
    obtain ⟨hpre, hin⟩ := List.mem_filter.mp hp
    obtain ⟨r, _, hr⟩ := List.mem_map.mp hpre
    unfold finishTrade at hfin
    cases hq : p.row pc1 <;> rw [hq] at hfin <;> try cases hfin
    rename_i q
    subst hr
    simp only [inCycleRange, Bool.and_eq_true, decide_eq_true_eq] at hin
    exact ⟨rfl, hin.1, hin.2⟩
  · intro p
    rw [List.mem_filter]
    simp [inCycleRange]

/-- Concrete row of the C1 witness table. -/
def c1row (h m : ℕ) (pnl : ℚ) : String → Cell := fun c =>
  if c = "Date/Time" then .time ⟨2025, 3, 4, h, m⟩
  else if c = "Type" then .str "Entry long"
  else if c = "P&L USD" then .num pnl
  else .empty

/-- Concrete table of the C1 witness: entries at 08:20, 06:59 and 16:20. -/
def c1tbl : Table :=
  ⟨["Date/Time", "Type", "P&L USD"], [c1row 8 20 10, c1row 6 59 5, c1row 16 20 7]⟩

/-- Parsed rows of the C1 witness table. -/
def c1rts : List RowTs :=
  [⟨c1row 8 20 10, ⟨2025, 3, 4, 8, 20⟩⟩,
   ⟨c1row 6 59 5, ⟨2025, 3, 4, 6, 59⟩⟩,
   ⟨c1row 16 20 7, ⟨2025, 3, 4, 16, 20⟩⟩]

/-- The only trade surviving the cycle filter of the C1 witness table. -/
def c1trade : NormalizedTrade :=
  { ts := ⟨2025, 3, 4, 8, 20⟩, hour := 8, minute := 20, date := ⟨2025, 3, 4⟩
    total_mins := 80, cycle_num := 1, is_win := true, pnl := 10, trade_type := "Long" }

/-- Witness for C1: the theorem applies to a concrete table where the
08:20 trade lands in cycle 1 and the 06:59 and 16:20 rows are dropped. -/
theorem c1_witness :
    process_trades c1tbl = .ok [c1trade]
    ∧ (∀ e ∈ [c1trade],
        e.cycle_num = cycleIndex e.hour e.minute ∧ 0 ≤ e.cycle_num ∧ e.cycle_num ≤ 6)
    ∧ cycleIndex 8 20 = 1 ∧ cycleIndex 6 59 = -1 ∧ cycleIndex 16 20 = 7 := by
  have hc := c1_cycle_indexing c1tbl "Date/Time" "P&L USD" c1rts [c1trade]
    (by rfl) (by rfl) (by rfl) (by rfl)
  exact ⟨by rfl, hc.1, hc.2.2.1, hc.2.2.2.1, hc.2.2.2.2⟩

/-- Wins and losses of a cycle row partition its trades. -/
theorem cycleRow_wins_losses (c : ℕ) (data : List NormalizedTrade) :
    (cycleRow c data).wins + (cycleRow c data).losses = (cycleRow c data).total_trades := by
  simp only [cycleRow, winsOf]
  have hle := List.length_filter_le (fun e => e.is_win) data
  omega

/-- The win rate of a cycle row is the rounded percentage of its wins. -/
theorem cycleRow_win_rate_eq (c : ℕ) (data : List NormalizedTrade) :
    (cycleRow c data).win_rate
      = roundQ 1 (100 * ((cycleRow c data).wins : ℚ) / ((cycleRow c data).total_trades : ℚ)) := by
  simp only [cycleRow]
  congr 1
  ring

/-- When every trade is Long or Short, the side counts of a cycle row sum
to the total. -/
theorem cycleRow_sides (c : ℕ) (data : List NormalizedTrade)
    (hLS : ∀ e ∈ data, e.trade_type = "Long" ∨ e.trade_type = "Short") :
    (cycleRow c data).long_trades + (cycleRow c data).short_trades
      = (cycleRow c data).total_trades := by
  simp only [cycleRow]
  rw [← List.countP_eq_length_filter, ← List.countP_eq_length_filter]
  have hsplit :=
    List.length_eq_countP_add_countP (fun e : NormalizedTrade => e.trade_type == "Long") data
  simp only [] at hsplit
  have hcongr :
      List.countP (fun a : NormalizedTrade => decide ¬((a.trade_type == "Long") = true)) data
        = List.countP (fun e : NormalizedTrade => e.trade_type == "Short") data := by
    apply List.countP_congr
    intro x hx
    rcases hLS x hx with h1 | h1 <;> simp [h1]
  rw [hcongr] at hsplit
  omega

/-- C2: every CycleStat satisfies `wins + losses = total_trades` and
`win_rate = round(100 * wins / total_trades, 1)`, and Long and Short
counts sum to the total when every trade side is Long or Short. -/
theorem c2_cycle_stat_invariants (entries : List NormalizedTrade) (s : CycleStat)
    (hs : s ∈ calculate_cycle_stats entries) :
    s.wins + s.losses = s.total_trades
    ∧ s.win_rate = roundQ 1 (100 * (s.wins : ℚ) / (s.total_trades : ℚ))
    ∧ ((∀ e ∈ entries, e.trade_type = "Long" ∨ e.trade_type = "Short") →
        s.long_trades + s.short_trades = s.total_trades) := by
  obtain ⟨c, _, hsome⟩ := List.mem_filterMap.mp hs
  simp only [] at hsome
  split at hsome
  · cases hsome
  · have heq := Option.some.inj hsome
    subst heq
    refine ⟨cycleRow_wins_losses c _, cycleRow_win_rate_eq c _, fun hLS => ?_⟩
    exact cycleRow_sides c _ (fun e he => hLS e (List.mem_filter.mp he).1)

/-- Concrete normalized trade used by the aggregate witnesses. -/
def mkTrade (c : ℤ) (w : Bool) (p : ℚ) (ty : String) : NormalizedTrade :=
  { ts := ⟨2025, 3, 4, 7, 10⟩, hour := 7, minute := 10, date := ⟨2025, 3, 4⟩
    total_mins := 10, cycle_num := c, is_win := w, pnl := p, trade_type := ty }

/-- Trades of the C2 witness: one winning Long and one losing Short in
cycle 0. -/
def c2ents : List NormalizedTrade :=
  [mkTrade 0 true 40 "Long", mkTrade 0 false (-10) "Short"]

/-- The cycle-0 statistics row of the C2 witness. -/
def c2stat : CycleStat := cycleRow 0 c2ents

/-- Witness for C2: the invariants instantiated on a concrete aggregate. -/
theorem c2_witness :
    c2stat ∈ calculate_cycle_stats c2ents
    ∧ c2stat.wins + c2stat.losses = c2stat.total_trades
    ∧ c2stat.win_rate = roundQ 1 (100 * (c2stat.wins : ℚ) / (c2stat.total_trades : ℚ))
    ∧ c2stat.long_trades + c2stat.short_trades = c2stat.total_trades := by
  have hstats : calculate_cycle_stats c2ents = [c2stat] := rfl
  have hmem : c2stat ∈ calculate_cycle_stats c2ents := by
    rw [hstats]; exact List.mem_cons_self _ _
  have h := c2_cycle_stat_invariants c2ents c2stat hmem
  exact ⟨hmem, h.1, h.2.1, h.2.2 (by decide)⟩

/-- C3: both report rankings are sorted in weakly descending key order,
and cycles of equal key keep their original order (pandas descending sort
reverses the rows, runs a stable ascending argsort, and reverses back, so
it is stable). -/
theorem c3_ranking_stable (cs : List CycleStat) (k : ℚ) :
    ((rankedByWinRate cs).Pairwise (fun a b => b.win_rate ≤ a.win_rate)
      ∧ (rankedByWinRate cs).filter (fun s => decide (s.win_rate = k))
          = cs.filter (fun s => decide (s.win_rate = k)))
    ∧ ((rankedByPnl cs).Pairwise (fun a b => b.total_pnl ≤ a.total_pnl)
      ∧ (rankedByPnl cs).filter (fun s => decide (s.total_pnl = k))
          = cs.filter (fun s => decide (s.total_pnl = k))) :=
  ⟨⟨sort_values_desc_pairwise _ cs, filter_sort_values_desc _ k cs⟩,
   ⟨sort_values_desc_pairwise _ cs, filter_sort_values_desc _ k cs⟩⟩

/-- Helper for C4: two renders of the same statistics and metadata agree
exactly when their formatted generation timestamps agree. -/
theorem generate_report_eq_iff (cs : List CycleStat) (os : OverallStats)
    (props? : Option (List (Cell × Cell))) (t1 t2 : Now) (h : cs ≠ []) :
    (generate_report cs os props? t1 = generate_report cs os props? t2)
      ↔ fmtNow t1 = fmtNow t2 := by
  have hemp : cs.isEmpty = false := by
    cases cs with
    | nil => exact absurd rfl h
    | cons a l => rfl
  unfold generate_report
  rw [hemp]
  simp only [Bool.false_eq_true, if_false, Except.ok.injEq]
  constructor
  · intro hEq
    have h1 := string_append_left_cancel hEq
    unfold footerText at h1
    exact string_append_left_cancel (string_append_right_cancel h1)
  · intro hf
    have hfoot : footerText t1 = footerText t2 := by
      unfold footerText
      rw [hf]
    rw [hfoot]

/-- Concrete cycle statistics row used by the renderer claims. -/
def c4stat : CycleStat :=
  { cycle := 0, time_range := "07:00 - 08:20", total_trades := 2, wins := 1, losses := 1
    win_rate := 50, total_pnl := 30, avg_pnl := 15, long_trades := 1, long_wr := 100
    long_pnl := 40, short_trades := 1, short_wr := 0, short_pnl := -10 }

/-- Concrete overall statistics used by the renderer claims. -/
def c4os : OverallStats :=
  { total_trades := 2, total_wins := 1, total_losses := 1, overall_wr := 50, total_pnl := 30
    long_trades := 1, long_wins := 1, long_losses := 0, long_wr := 100, long_pnl := 40
    short_trades := 1, short_wins := 0, short_losses := 1, short_wr := 0, short_pnl := -10
    start_date := some ⟨2025, 3, 4⟩, end_date := some ⟨2025, 3, 4⟩ }

/-- C4 counterexample: the renderer is not a pure function of the stats
and metadata alone, because the embedded `datetime.now()` footer makes two
renders of identical inputs differ. -/
theorem c4_counterexample :
    generate_report [c4stat] c4os none ⟨2025, 10, 12, 9, 5⟩
      ≠ generate_report [c4stat] c4os none ⟨2025, 10, 12, 9, 6⟩ := by
  intro hEq
  have h := (generate_report_eq_iff [c4stat] c4os none _ _ (List.cons_ne_nil _ _)).mp hEq
  have hne : fmtNow ⟨2025, 10, 12, 9, 5⟩ ≠ fmtNow ⟨2025, 10, 12, 9, 6⟩ := by decide
  exact hne h

/-- C4 (amended): the renderer is a pure function of its inputs together
with the clock reading; renders of the same stats and metadata are
byte-identical exactly when the formatted generation timestamps agree. -/
theorem c4_render_determinism (cs : List CycleStat) (os : OverallStats)
    (props? : Option (List (Cell × Cell))) (t1 t2 : Now) (h : cs ≠ []) :
    (generate_report cs os props? t1 = generate_report cs os props? t2)
      ↔ fmtNow t1 = fmtNow t2 :=
  generate_report_eq_iff cs os props? t1 t2 h

/-- Witness for C4: the amended equivalence instantiated at a concrete
report and clock reading. -/
theorem c4_witness :
    ([c4stat] ≠ ([] : List CycleStat))
    ∧ (generate_report [c4stat] c4os none ⟨2025, 10, 12, 9, 5⟩
        = generate_report [c4stat] c4os none ⟨2025, 10, 12, 9, 5⟩
      ↔ fmtNow ⟨2025, 10, 12, 9, 5⟩ = fmtNow ⟨2025, 10, 12, 9, 5⟩) :=
  ⟨List.cons_ne_nil _ _,
   c4_render_determinism [c4stat] c4os none _ _ (List.cons_ne_nil _ _)⟩

/-- Properties sheet of the C5 counterexample, with capitalized headers. -/
def c5props_tbl : Table :=
  ⟨["Name", "Value"],
   [fun c => if c = "Name" then .str "Symbol" else if c = "Value" then .str "ES" else .empty]⟩

/-- Sheets of the C5 counterexample. -/
def c5sheets : List (String × Table) := [("Properties", c5props_tbl)]

/-- C5 counterexample: a "Properties" sheet whose columns are "Name" and
"Value" meets the case-insensitive column condition of the claim (and its
two columns would zip to a nonempty mapping), yet the loader leaves the
metadata empty, because `props_df.columns` is probed for the exact
lowercase names. -/
theorem c5_counterexample :
    containsLower "propert" "Properties" = true
    ∧ (c5props_tbl.header.map strLower).contains "name" = true
    ∧ (c5props_tbl.header.map strLower).contains "value" = true
    ∧ List.zip (c5props_tbl.rows.map (fun r => r "Name"))
        (c5props_tbl.rows.map (fun r => r "Value"))
        = [(Cell.str "Symbol", Cell.str "ES")]
    ∧ extractProps c5sheets = [] :=
  ⟨rfl, rfl, rfl, rfl, rfl⟩

/-- C5 (amended): metadata comes from the first sheet in order whose name
contains "propert" (case-insensitive), and only when that sheet has
columns exactly named "name" and "value" — matched case-sensitively;
otherwise the metadata mapping is empty. -/
theorem c5_metadata_extraction (sheets : List (String × Table)) :
    extractProps sheets =
      match sheets.find? (fun p => containsLower "propert" p.1) with
      | none => []
      | some (_, t) =>
        if t.header.contains "name" && t.header.contains "value" then
          List.zip (t.rows.map (fun r => r "name")) (t.rows.map (fun r => r "value"))
        else [] := by
  induction sheets with
  | nil => rfl
  | cons p rest ih =>
    obtain ⟨nm, t⟩ := p
    cases hnm : containsLower "propert" nm with
    | true => simp [extractProps, List.find?_cons, hnm]
    | false => simp [extractProps, List.find?_cons, hnm, ih]

/-- Pass 1 of the P&L search picks the first column matching both
predicate groups: the inner placement of the `break` makes the scan
equivalent to a single conjunctive search. -/
theorem findPnlPass1_eq (cols : List String) :
    findPnlPass1 cols = cols.find? (fun c =>
      (containsLower "p&l" c || containsLower "pnl" c || containsLower "profit" c)
      && (containsLower "usd" c || containsLower "net" c)) := by
  induction cols with
  | nil => rfl
  | cons c rest ih =>
    simp only [findPnlPass1, List.find?_cons]
    cases hA : (containsLower "p&l" c || containsLower "pnl" c || containsLower "profit" c) with
    | false => simp [hA, ih]
    | true =>
      cases hB : (containsLower "usd" c || containsLower "net" c) with
      | false => simp [hA, hB, ih]
      | true => simp [hA, hB]

/-- Pass 2 of the P&L search is a first-match scan for "p&l" or "pnl". -/
theorem findPnlPass2_eq (cols : List String) :
    findPnlPass2 cols
      = cols.find? (fun c => containsLower "p&l" c || containsLower "pnl" c) := by
  induction cols with
  | nil => rfl
  | cons c rest ih =>
    simp only [findPnlPass2, List.find?_cons]
    cases hA : (containsLower "p&l" c || containsLower "pnl" c) with
    | false => simp [hA, ih]
    | true => simp [hA]

/-- The resolver yields no P&L column exactly when both passes fail. -/
theorem findPnlCol_none_iff (cols : List String) :
    findPnlCol cols = none ↔ findPnlPass1 cols = none ∧ findPnlPass2 cols = none := by
  unfold findPnlCol
  cases hp : findPnlPass1 cols <;> simp [hp]

/-- With the timestamp column resolved but no P&L column, `process_trades`
raises the missing-P&L error. -/
theorem process_trades_missing_pnl {tbl : Table} {dc : String}
    (hdc : findDatetimeCol tbl.header = some dc) (hpc : findPnlCol tbl.header = none) :
    process_trades tbl = .error (.missingColumn "pnl") := by
  unfold process_trades
  rw [hdc, hpc]

/-- A missing-P&L error from `process_trades` can only come from the
resolver: every later stage raises a different error kind. -/
theorem process_trades_error_pnl_inv {tbl : Table}
    (h : process_trades tbl = .error (.missingColumn "pnl")) :
    findPnlCol tbl.header = none := by
  unfold process_trades at h
  split at h
  · injection h with h1
    injection h1 with h2
    exact absurd h2 (by decide)
  · split at h
    · rename_i hpc
      exact hpc
    · split at h
      · rename_i e hts
        have he : e = .dataFormat := parseTimes_error hts
        subst he
        cases h
      · simp only [] at h
        split at h
        · cases h
        · obtain ⟨a, _, ha⟩ := mapME_error_mem h
          cases finishTrade_error ha

/-- C6: the resolved P&L column is the first column containing one of
p&l, pnl, profit together with usd or net; failing that, the first column
containing p&l or pnl; and `process_trades` raises the missing-P&L error
exactly when both passes find nothing. -/
theorem c6_pnl_resolution (tbl : Table) (dc : String)
    (hdc : findDatetimeCol tbl.header = some dc) :
    findPnlCol tbl.header
      = (tbl.header.find? (fun c =>
          (containsLower "p&l" c || containsLower "pnl" c || containsLower "profit" c)
          && (containsLower "usd" c || containsLower "net" c))).orElse
          (fun _ => tbl.header.find? (fun c => containsLower "p&l" c || containsLower "pnl" c))
    ∧ (process_trades tbl = .error (.missingColumn "pnl")
        ↔ tbl.header.find? (fun c =>
            (containsLower "p&l" c || containsLower "pnl" c || containsLower "profit" c)
            && (containsLower "usd" c || containsLower "net" c)) = none
          ∧ tbl.header.find? (fun c => containsLower "p&l" c || containsLower "pnl" c)
              = none) := by
  have h1 := findPnlPass1_eq tbl.header
  have h2 := findPnlPass2_eq tbl.header
  constructor
  · unfold findPnlCol
    rw [h1, h2]
    cases hf : tbl.header.find? (fun c =>
        (containsLower "p&l" c || containsLower "pnl" c || containsLower "profit" c)
        && (containsLower "usd" c || containsLower "net" c)) <;>
      simp [hf, Option.orElse]
  · constructor
    · intro hproc
      have hnone := process_trades_error_pnl_inv hproc
      have hsplit := (findPnlCol_none_iff tbl.header).mp hnone
      exact ⟨h1 ▸ hsplit.1, h2 ▸ hsplit.2⟩
    · intro hs
      apply process_trades_missing_pnl hdc
      exact (findPnlCol_none_iff tbl.header).mpr ⟨h1.trans hs.1, h2.trans hs.2⟩

/-- Table of the C6 witness: a timestamp column but no P&L column. -/
def c6tbl : Table := ⟨["Date", "Qty"], [fun _ => Cell.empty]⟩

/-- Witness for C6: on a table with no P&L-like column, both passes fail
and `process_trades` raises the missing-P&L error. -/
theorem c6_witness :
    findDatetimeCol c6tbl.header = some "Date"
    ∧ (process_trades c6tbl = .error (.missingColumn "pnl")
        ↔ c6tbl.header.find? (fun c =>
            (containsLower "p&l" c || containsLower "pnl" c || containsLower "profit" c)
            && (containsLower "usd" c || containsLower "net" c)) = none
          ∧ c6tbl.header.find? (fun c => containsLower "p&l" c || containsLower "pnl" c)
              = none)
    ∧ process_trades c6tbl = .error (.missingColumn "pnl") := by
  have h := c6_pnl_resolution c6tbl "Date" (by rfl)
  exact ⟨by rfl, h.2, h.2.mpr ⟨by rfl, by rfl⟩⟩

/-- Every emitted cycle statistic carries the one-decimal rounded win
rate. -/
theorem calculate_cycle_stats_win_rate {entries : List NormalizedTrade} {s : CycleStat}
    (hs : s ∈ calculate_cycle_stats entries) :
    s.win_rate = roundQ 1 (100 * (s.wins : ℚ) / (s.total_trades : ℚ)) := by
  obtain ⟨c, _, hsome⟩ := List.mem_filterMap.mp hs
  simp only [] at hsome
  split at hsome
  · cases hsome
  · have heq := Option.some.inj hsome
    subst heq
    exact cycleRow_win_rate_eq c _

/-- Trades of the C7 witness: two wins out of three in cycle 0. -/
def c7ents : List NormalizedTrade :=
  [mkTrade 0 true 10 "Long", mkTrade 0 true 20 "Long", mkTrade 0 false (-5) "Short"]

/-- C7: the overall win rate is rounded to two decimals while each cycle
win rate is rounded to one decimal, and on a 2/3 win ratio the two
rounded values differ (66.67 versus 66.7). -/
theorem c7_rounding_asymmetry :
    (∀ entries : List NormalizedTrade, entries ≠ [] →
      (calculate_overall_stats entries).overall_wr
        = roundQ 2 (100 * ((calculate_overall_stats entries).total_wins : ℚ)
            / ((calculate_overall_stats entries).total_trades : ℚ)))
    ∧ (∀ (entries : List NormalizedTrade) (s : CycleStat),
        s ∈ calculate_cycle_stats entries →
          s.win_rate = roundQ 1 (100 * (s.wins : ℚ) / (s.total_trades : ℚ)))
    ∧ (calculate_overall_stats c7ents).overall_wr = 6667/100
    ∧ (calculate_cycle_stats c7ents).map (fun s => s.win_rate) = [667/10]
    ∧ (6667/100 : ℚ) ≠ 667/10 := by
  refine ⟨?_, fun entries s hs => calculate_cycle_stats_win_rate hs, ?_, ?_, by norm_num⟩
  · intro entries _
    simp only [calculate_overall_stats]
    congr 1
    ring
  · simp only [calculate_overall_stats]
    have hw : winsOf c7ents = 2 := rfl
    have hl : c7ents.length = 3 := rfl
    rw [hw, hl]
    norm_num [roundQ, halfEvenRound]
  · have hstats : calculate_cycle_stats c7ents = [cycleRow 0 c7ents] := rfl
    rw [hstats]
    simp only [List.map]
    have hw : winsOf c7ents = 2 := rfl
    have hl : c7ents.length = 3 := rfl
    simp only [cycleRow, hw, hl]
    norm_num [roundQ, halfEvenRound]

/-- Witness for C7: the rounding formulas applied to the concrete 2/3
input. -/
theorem c7_witness :
    c7ents ≠ []
    ∧ (calculate_overall_stats c7ents).overall_wr
        = roundQ 2 (100 * ((calculate_overall_stats c7ents).total_wins : ℚ)
            / ((calculate_overall_stats c7ents).total_trades : ℚ))
    ∧ cycleRow 0 c7ents ∈ calculate_cycle_stats c7ents
    ∧ (cycleRow 0 c7ents).win_rate
        = roundQ 1 (100 * ((cycleRow 0 c7ents).wins : ℚ) / ((cycleRow 0 c7ents).total_trades : ℚ)) := by
  have hne : c7ents ≠ [] := by unfold c7ents; exact List.cons_ne_nil _ _
  have hmem : cycleRow 0 c7ents ∈ calculate_cycle_stats c7ents := by
    have hstats : calculate_cycle_stats c7ents = [cycleRow 0 c7ents] := rfl
    rw [hstats]
    exact List.mem_cons_self _ _
  have h := c7_rounding_asymmetry
  exact ⟨hne, h.1 c7ents hne, hmem, h.2.1 c7ents _ hmem⟩

/-- C8: the recommended schedule lists cycles in weakly descending
win-rate order with 1-based sequential priorities, and classifies each
row by win rate — at least 55 gives GO with the long/short action rule,
at least 50 but below 55 gives CAUTION, below 50 gives SKIP. -/
theorem c8_schedule (cs : List CycleStat) :
    ((scheduleRows cs).map (fun r => r.priority)
        = List.range' 1 (scheduleRows cs).length)
    ∧ (scheduleRows cs).Pairwise (fun a b => b.stat.win_rate ≤ a.stat.win_rate)
    ∧ ∀ r ∈ scheduleRows cs,
        (55 ≤ r.stat.win_rate →
          r.status = "[GO]"
          ∧ (r.stat.long_wr > r.stat.short_wr + 10 → r.action = "Favor longs")
          ∧ (¬ r.stat.long_wr > r.stat.short_wr + 10 →
              r.stat.short_wr > r.stat.long_wr + 10 → r.action = "Favor shorts")
          ∧ (¬ r.stat.long_wr > r.stat.short_wr + 10 →
              ¬ r.stat.short_wr > r.stat.long_wr + 10 →
              r.action = "Trade both directions"))
        ∧ (50 ≤ r.stat.win_rate → r.stat.win_rate < 55 →
            r.status = "[CAUTION]" ∧ r.action = "Trade with caution")
        ∧ (r.stat.win_rate < 50 →
            r.status = "[SKIP]" ∧ r.action = "Do not trade") := by
  refine ⟨?_, ?_, ?_⟩
  · unfold scheduleRows
    rw [List.map_map, List.length_map]
    have hfst : ((fun r : ScheduleRow => r.priority) ∘
        (fun pr : ℕ × CycleStat =>
          ({ priority := pr.1, stat := pr.2, status := (classify pr.2).1
             action := (classify pr.2).2 } : ScheduleRow))) = Prod.fst := by
      funext pr
      rfl
    rw [hfst, List.enumFrom_map_fst, List.enumFrom_length]
  · unfold scheduleRows
    rw [List.pairwise_map]
    have hm := @List.pairwise_map (ℕ × CycleStat) CycleStat Prod.snd
      (fun a b => b.win_rate ≤ a.win_rate) (List.enumFrom 1 (rankedByWinRate cs))
    rw [List.enumFrom_map_snd] at hm
    exact hm.mp (sort_values_desc_pairwise _ cs)
  · intro r hr
    obtain ⟨pr, _, rfl⟩ := List.mem_map.mp hr
    refine ⟨fun h55 => ?_, fun h50 h55 => ?_, fun h50 => ?_⟩
    · have hcl : classify pr.2
          = ("[GO]",
             if pr.2.long_wr > pr.2.short_wr + 10 then "Favor longs"
             else if pr.2.short_wr > pr.2.long_wr + 10 then "Favor shorts"
             else "Trade both directions") := by
        unfold classify
        rw [if_pos h55]
      refine ⟨?_, fun hl => ?_, fun hl hsgt => ?_, fun hl hs => ?_⟩
      · show (classify pr.2).1 = "[GO]"
        rw [hcl]
      · show (classify pr.2).2 = "Favor longs"
        rw [hcl]
        simp only []
        rw [if_pos hl]
      · show (classify pr.2).2 = "Favor shorts"
        rw [hcl]
        simp only []
        rw [if_neg hl, if_pos hsgt]
      · show (classify pr.2).2 = "Trade both directions"
        rw [hcl]
        simp only []
        rw [if_neg hl, if_neg hs]
    · have hcl : classify pr.2 = ("[CAUTION]", "Trade with caution") := by
        unfold classify
        rw [if_neg (not_le.mpr h55), if_pos h50]
      exact ⟨by show (classify pr.2).1 = _; rw [hcl],
             by show (classify pr.2).2 = _; rw [hcl]⟩
    · have h55 : ¬ (55 : ℚ) ≤ pr.2.win_rate :=
        not_le.mpr (lt_trans h50 (by norm_num))
      have h50n : ¬ (50 : ℚ) ≤ pr.2.win_rate := not_le.mpr h50
      have hcl : classify pr.2 = ("[SKIP]", "Do not trade") := by
        unfold classify
        rw [if_neg h55, if_neg h50n]
      exact ⟨by show (classify pr.2).1 = _; rw [hcl],
             by show (classify pr.2).2 = _; rw [hcl]⟩

/-- High-win-rate cycle row of the C8 witness. -/
def c8statA : CycleStat :=
  { cycle := 0, time_range := "07:00 - 08:20", total_trades := 5, wins := 4, losses := 1
    win_rate := 80, total_pnl := 650, avg_pnl := 130, long_trades := 3, long_wr := 100
    long_pnl := 600, short_trades := 2, short_wr := 50, short_pnl := 50 }

/-- Low-win-rate cycle row of the C8 witness. -/
def c8statB : CycleStat :=
  { cycle := 3, time_range := "11:00 - 12:20", total_trades := 5, wins := 1, losses := 4
    win_rate := 20, total_pnl := 100, avg_pnl := 20, long_trades := 3, long_wr := 30
    long_pnl := 200, short_trades := 2, short_wr := 0, short_pnl := -100 }

/-- Statistics list of the C8 witness. -/
def c8cs : List CycleStat := [c8statA, c8statB]

/-- First schedule row produced on the C8 witness. -/
def c8row1 : ScheduleRow :=
  { priority := 1, stat := c8statA, status := "[GO]", action := "Favor longs" }

/-- Second schedule row produced on the C8 witness. -/
def c8row2 : ScheduleRow :=
  { priority := 2, stat := c8statB, status := "[SKIP]", action := "Do not trade" }

/-- Witness for C8: the schedule properties instantiated on a concrete
two-cycle aggregate with one GO and one SKIP row. -/
theorem c8_witness :
    (scheduleRows c8cs).map (fun r => r.priority) = List.range' 1 2
    ∧ c8row1 ∈ scheduleRows c8cs
    ∧ (55 : ℚ) ≤ c8row1.stat.win_rate
    ∧ c8row1.status = "[GO]"
    ∧ c8row1.action = "Favor longs"
    ∧ c8row2 ∈ scheduleRows c8cs
    ∧ c8row2.stat.win_rate < (50 : ℚ)
    ∧ c8row2.status = "[SKIP]" := by
  have h := c8_schedule c8cs
  have hrows : scheduleRows c8cs = [c8row1, c8row2] := by
    have hrank : rankedByWinRate c8cs = [c8statA, c8statB] := rfl
    unfold scheduleRows
    rw [hrank]
    norm_num [List.enumFrom, classify, c8row1, c8row2, c8statA, c8statB]
  have hm1 : c8row1 ∈ scheduleRows c8cs := by
    rw [hrows]; exact List.mem_cons_self _ _
  have hm2 : c8row2 ∈ scheduleRows c8cs := by
    rw [hrows]; exact List.mem_cons_of_mem _ (List.mem_cons_self _ _)
  have h55 : (55 : ℚ) ≤ c8row1.stat.win_rate := by
    show (55 : ℚ) ≤ 80; norm_num
  have hl10 : c8row1.stat.long_wr > c8row1.stat.short_wr + 10 := by
    show (100 : ℚ) > 50 + 10; norm_num
  have h50 : c8row2.stat.win_rate < (50 : ℚ) := by
    show (20 : ℚ) < 50; norm_num
  have hlen : (scheduleRows c8cs).length = 2 := by rw [hrows]; rfl
  obtain ⟨hA1, hA2, _, _⟩ := (h.2.2 c8row1 hm1).1 h55
  exact ⟨hlen ▸ h.1, hm1, h55, hA1, hA2 hl10, hm2, h50,
         ((h.2.2 c8row2 hm2).2.2 h50).1⟩

/-- Row of the C9 witness whose trade-type cell is missing. -/
def c9row_missing : String → Cell := fun c =>
  if c = "Date/Time" then .time ⟨2025, 3, 4, 9, 0⟩
  else if c = "P&L USD" then .num 3
  else .empty

/-- Well-formed entry row of the C9 witness. -/
def c9row_ok : String → Cell := fun c =>
  if c = "Date/Time" then .time ⟨2025, 3, 4, 9, 0⟩
  else if c = "Type" then .str "Entry long"
  else if c = "P&L USD" then .num 3
  else .empty

/-- Table of the C9 witness: one row with a missing type cell, one entry
row. -/
def c9tbl : Table :=
  ⟨["Date/Time", "Type", "P&L USD"], [c9row_missing, c9row_ok]⟩

/-- Parsed rows of the C9 witness table. -/
def c9rts : List RowTs :=
  [⟨c9row_missing, ⟨2025, 3, 4, 9, 0⟩⟩, ⟨c9row_ok, ⟨2025, 3, 4, 9, 0⟩⟩]

/-- The single trade the C9 witness table yields. -/
def c9trade : NormalizedTrade :=
  { ts := ⟨2025, 3, 4, 9, 0⟩, hour := 9, minute := 0, date := ⟨2025, 3, 4⟩
    total_mins := 120, cycle_num := 1, is_win := true, pnl := 3, trade_type := "Long" }

/-- C9: with a type column present, the entry filter keeps only rows
whose type cell is a string containing "entry"; a row with a missing
(NaN) type value is therefore silently excluded — `na=False` — and on a
concrete table with such a row processing succeeds with the row absent. -/
theorem c9_missing_type_excluded :
    (∀ (tc : String) (rows : List RowTs) (r : RowTs),
        r ∈ entryFilter (some tc) rows →
          ∃ s, r.row tc = .str s ∧ containsLower "entry" s = true)
    ∧ (∀ (tc : String) (rows : List RowTs) (r : RowTs),
        r.row tc = .empty → r ∉ entryFilter (some tc) rows)
    ∧ process_trades c9tbl = .ok [c9trade] := by
  have hkept : ∀ (tc : String) (rows : List RowTs) (r : RowTs),
      r ∈ entryFilter (some tc) rows →
        ∃ s, r.row tc = .str s ∧ containsLower "entry" s = true := by
    intro tc rows r hr
    obtain ⟨_, hp⟩ := List.mem_filter.mp hr
    cases hc : r.row tc <;> rw [hc] at hp
    case str s => exact ⟨s, rfl, hp⟩
    all_goals cases hp
  refine ⟨hkept, ?_, by rfl⟩
  intro tc rows r hemp hr
  obtain ⟨s, hs, _⟩ := hkept tc rows r hr
  rw [hemp] at hs
  cases hs

/-- Witness for C9: the exclusion facts instantiated on the concrete
table — the missing-type row is dropped, the entry row is kept, and no
error is raised. -/
theorem c9_witness :
    (∃ s, c9row_ok "Type" = Cell.str s ∧ containsLower "entry" s = true)
    ∧ (⟨c9row_missing, ⟨2025, 3, 4, 9, 0⟩⟩ : RowTs) ∉ entryFilter (some "Type") c9rts
    ∧ process_trades c9tbl = .ok [c9trade] := by
  have h := c9_missing_type_excluded
  refine ⟨?_, h.2.1 "Type" c9rts _ (by rfl), h.2.2⟩
  have hmem : (⟨c9row_ok, ⟨2025, 3, 4, 9, 0⟩⟩ : RowTs) ∈ entryFilter (some "Type") c9rts := by
    apply List.mem_filter.mpr
    exact ⟨List.mem_cons_of_mem _ (List.mem_cons_self _ _), by rfl⟩
  exact h.1 "Type" c9rts _ hmem

/-- Staged form of a `process_trades` run whose column resolution and
timestamp parsing succeed. -/
theorem process_trades_eq {tbl : Table} {dc pc : String} {rts : List RowTs}
    (hdc : findDatetimeCol tbl.header = some dc)
    (hpc : findPnlCol tbl.header = some pc)
    (hts : parseTimes dc tbl.rows = .ok rts) :
    process_trades tbl =
      (if (entryFilter (findTypeCol tbl.header) rts).isEmpty then .error .emptyDataset
       else mapME (finishTrade pc (findTypeCol tbl.header))
          (((entryFilter (findTypeCol tbl.header) rts).map withCycle).filter inCycleRange)) := by
  simp only [process_trades, hdc, hpc, hts]

/-- C10: the empty-dataset check runs before the cycle-range filter —
with columns resolved and timestamps parsed, `EmptyDatasetError` is
raised exactly when no row survives the entry-type filter, and an input
whose entry rows all fall outside cycles 0-6 instead succeeds with an
empty trade sequence, which the aggregator maps to an empty statistics
list. -/
theorem c10_empty_check_order (tbl : Table) (dc pc : String) (rts : List RowTs)
    (hdc : findDatetimeCol tbl.header = some dc)
    (hpc : findPnlCol tbl.header = some pc)
    (hts : parseTimes dc tbl.rows = .ok rts) :
    (process_trades tbl = .error .emptyDataset
      ↔ entryFilter (findTypeCol tbl.header) rts = [])
    ∧ (entryFilter (findTypeCol tbl.header) rts ≠ [] →
        (∀ r ∈ entryFilter (findTypeCol tbl.header) rts,
          inCycleRange (withCycle r) = false) →
        process_trades tbl = .ok [])
    ∧ calculate_cycle_stats [] = [] := by
  rw [process_trades_eq hdc hpc hts]
  refine ⟨?_, ?_, rfl⟩
  · constructor
    · intro h
      cases hemp : (entryFilter (findTypeCol tbl.header) rts).isEmpty with
      | true => exact List.isEmpty_iff.mp hemp
      | false =>
        rw [hemp] at h
        simp only [Bool.false_eq_true, if_false] at h
        obtain ⟨a, _, ha⟩ := mapME_error_mem h
        cases finishTrade_error ha
    · intro h
      rw [h]
      rfl
  · intro hne hall
    have hemp : (entryFilter (findTypeCol tbl.header) rts).isEmpty = false := by
      cases hf : entryFilter (findTypeCol tbl.header) rts with
      | nil => exact absurd hf hne
      | cons a l => rfl
    rw [hemp]
    simp only [Bool.false_eq_true, if_false]
    have hfil : ((entryFilter (findTypeCol tbl.header) rts).map withCycle).filter
        inCycleRange = [] := by
      apply List.filter_eq_nil_iff.mpr
      intro a ha
      obtain ⟨r, hr, rfl⟩ := List.mem_map.mp ha
      rw [hall r hr]
      exact Bool.false_ne_true
    rw [hfil]
    rfl

/-- Table of the C10 witness: its only entry row is timestamped 16:20,
outside every cycle. -/
def c10tbl : Table := ⟨["Date/Time", "Type", "P&L USD"], [c1row 16 20 7]⟩

/-- Parsed rows of the C10 witness table. -/
def c10rts : List RowTs := [⟨c1row 16 20 7, ⟨2025, 3, 4, 16, 20⟩⟩]

/-- Witness for C10: the all-out-of-range table raises no
EmptyDatasetError and reaches aggregation with an empty trade list. -/
theorem c10_witness :
    (process_trades c10tbl = .error .emptyDataset
      ↔ entryFilter (findTypeCol c10tbl.header) c10rts = [])
    ∧ process_trades c10tbl = .ok []
    ∧ calculate_cycle_stats [] = [] := by
  have h := c10_empty_check_order c10tbl "Date/Time" "P&L USD" c10rts
    (by rfl) (by rfl) (by rfl)
  refine ⟨h.1, ?_, h.2.2⟩
  apply h.2.1
  · show (⟨c1row 16 20 7, ⟨2025, 3, 4, 16, 20⟩⟩ : RowTs) :: [] ≠ []
    exact List.cons_ne_nil _ _
  · intro r hr
    have hr2 : r ∈ [(⟨c1row 16 20 7, ⟨2025, 3, 4, 16, 20⟩⟩ : RowTs)] := hr
    rw [List.mem_singleton.mp hr2]
    rfl
